import Mathlib

/-!
Formalisation of the command registration module of qutebrowser
(qutebrowser/commands/utils.py): the `register` decorator class, its
arity-resolution helper `_get_nargs_count`, and the process-wide
mapping `cmd_dict` from command names to command records.

The embedding is shallow: Python signatures are modelled by the data
`inspect.getfullargspec` returns (parameter-name list, number of
trailing parameters carrying defaults, presence of a varargs
parameter); the mutable `cmd_dict` is modelled as an association list
threaded through the registration function; Python exceptions
(`ValueError` from `register.__init__`, `ValueError` from tuple
unpacking of `nargs`, `IndexError` from indexing an empty
`splitlines()` result) become an `Except` error type.
-/

set_option autoImplicit false

namespace QuteReg

/-- The shape of `inspect.getfullargspec(func)` as `_get_nargs_count` uses it:
`args` is the ordered list of declared (non-varargs) parameter names,
`ndefaults` is `len(spec.defaults)` — in Python, defaults attach to the
last `ndefaults` entries of `args` — and `varargs` records whether the
signature has a variable-length `*args` parameter
(`spec.varargs is not None`). -/
structure ArgSpec where
  args : List String
  ndefaults : Nat
  varargs : Bool
deriving Repr, DecidableEq

/-- The explicit `nargs` override passed to `register(...)`: either a single
int `N` (not an `Iterable`, so the code uses `minargs = maxargs = N`), or an
iterable of elements that the code unpacks as `minargs, maxargs = self.nargs`
(each element is an int or Python `None`, modelled as `Option Int`). -/
inductive NargsOverride where
  | int (n : Int)
  | iter (elems : List (Option Int))
deriving Repr, DecidableEq

/-- The exceptions the module can raise, by raise site:
`configError` is the `ValueError("Only modes or not_modes can be given!")`
from `register.__init__`; `unpackError` is the `ValueError` Python raises
when `minargs, maxargs = self.nargs` unpacks an iterable whose length is
not 2; `indexError` is the `IndexError` from `[0]` on an empty list
(empty `splitlines()` result, or `name[0]` on an empty name list). -/
inductive RegError where
  | configError
  | unpackError
  | indexError
deriving Repr, DecidableEq

/-- A Python handler function as the registration code observes it:
its `__name__`, its `__doc__` (absent = Python `None`), and its
introspected signature. -/
structure Handler where
  funcName : String
  doc : Option String
  argspec : ArgSpec
deriving Repr, DecidableEq

/-- The keyword arguments of `register.__init__`, with the same defaults.
`name` may be a string or a list of strings (Python checks
`isinstance(name, str)`), hence the sum type. `instance` is a Lean
keyword, so that field is called `instance_`. -/
structure RegisterOptions where
  instance_ : Option String := none
  name : Option (String ⊕ List String) := none
  nargs : Option NargsOverride := none
  maxsplit : Int := -1
  hide : Bool := false
  completion : Option (List String) := none
  modes : Option (List String) := none
  not_modes : Option (List String) := none
deriving Repr, DecidableEq

/-- Modelled from the spec: the `Command` record
(`qutebrowser/commands/_command.py`, outside this fragment) is, per the
spec, "treated as an opaque record the core populates" — a value object
storing the constructor arguments `register.__call__` passes, with no
behaviour of its own. Field names follow the keyword arguments of the
`Command(...)` call in `register.__call__`. -/
structure Command where
  name : String
  maxsplit : Int
  hide : Bool
  nargs : Option Int × Option Int
  count : Bool
  desc : String
  instance_ : Option String
  handler : Handler
  completion : Option (List String)
  modes : Option (List String)
  not_modes : Option (List String)
deriving Repr, DecidableEq

/-- Python `str.splitlines`, restricted to the line terminators that occur
in docstrings (LF, CR, CRLF): splits at each terminator; a trailing
terminator does not produce a trailing empty line; the empty string
yields the empty list. -/
def splitlinesAux : List Char → List Char → List String
  | [], acc => if acc.isEmpty then [] else [String.mk acc.reverse]
  | '\r' :: '\n' :: rest, acc => String.mk acc.reverse :: splitlinesAux rest []
  | '\r' :: rest, acc => String.mk acc.reverse :: splitlinesAux rest []
  | '\n' :: rest, acc => String.mk acc.reverse :: splitlinesAux rest []
  | c :: rest, acc => splitlinesAux rest (c :: acc)

/-- Python `s.splitlines()` on a docstring. -/
def splitlines (s : String) : List String :=
  splitlinesAux s.data []

/-- Python `s.rstrip(".")`: remove every trailing period. -/
def rstripDots (s : String) : String :=
  String.mk ((s.data.reverse.dropWhile (fun c => c = '.')).reverse)

/-- Python `s.strip()`: remove leading and trailing whitespace. -/
def pyStrip (s : String) : String :=
  String.mk (((s.data.dropWhile Char.isWhitespace).reverse.dropWhile
    Char.isWhitespace).reverse)

/-- The description computation of `register.__call__`:
`func.__doc__.splitlines()[0].strip().rstrip(".")` when `__doc__` is not
`None`, else `""`. Indexing `[0]` raises `IndexError` when
`splitlines()` returns the empty list (which happens exactly for
`__doc__ == ""`). -/
def getDesc (doc : Option String) : Except RegError String :=
  match doc with
  | none => Except.ok ""
  | some d =>
    match splitlines d with
    | [] => Except.error RegError.indexError
    | line :: _ => Except.ok (rstripDots (pyStrip line))

/-- `register._get_nargs_count`, returning `(count, (minargs, maxargs))`:
`count` is `'count' in spec.args`; with an int override `n`,
`minargs = maxargs = n`; with an iterable override, Python unpacks it
into the pair (raising `ValueError` unless it has exactly two
elements); with no override, `argcount = len(spec.args)` minus one if
`'self' in spec.args`, `minargs = argcount - len(spec.defaults)`, and
`maxargs` is `None` (unbounded) when the signature is variadic, else
`argcount - int(count)`. -/
def getNargsCount (nargs : Option NargsOverride) (sp : ArgSpec) :
    Except RegError (Bool × (Option Int × Option Int)) :=
  let count : Bool := decide ("count" ∈ sp.args)
  match nargs with
  | some (NargsOverride.int n) => Except.ok (count, (some n, some n))
  | some (NargsOverride.iter es) =>
    match es with
    | [mn, mx] => Except.ok (count, (mn, mx))
    | _ => Except.error RegError.unpackError
  | none =>
    let argcount : Int :=
      (sp.args.length : Int) - (if "self" ∈ sp.args then 1 else 0)
    let minargs : Int := argcount - (sp.ndefaults : Int)
    let maxargs : Option Int :=
      if sp.varargs then none
      else some (argcount - (if count then 1 else 0))
    Except.ok (count, (some minargs, maxargs))

/-- The name-resolution prefix of `register.__call__`:
`name = func.__name__.lower() if self.name is None else self.name`;
a plain string becomes both the main name and the single alias, a list
contributes its head as main name (`name[0]`, an `IndexError` on an
empty list) and all its elements as aliases. Returns
`(mainname, names)`. -/
def resolveNames (optName : Option (String ⊕ List String)) (funcName : String) :
    Except RegError (String × List String) :=
  match optName with
  | none => Except.ok (funcName.toLower, [funcName.toLower])
  | some (Sum.inl s) => Except.ok (s, [s])
  | some (Sum.inr l) =>
    match l with
    | [] => Except.error RegError.indexError
    | m :: _ => Except.ok (m, l)

/-- `cmd_dict[k] = v` on the association-list model of a Python dict:
overwrite in place the binding of an existing key, else append the new
binding at the end (Python dicts preserve insertion order and keep the
original position on overwrite). -/
def dictInsert (d : List (String × Command)) (k : String) (v : Command) :
    List (String × Command) :=
  match d with
  | [] => [(k, v)]
  | p :: rest => if p.1 = k then (k, v) :: rest else p :: dictInsert rest k v

/-- `cmd_dict[k]` as a total lookup returning `none` for a missing key. -/
def cmdLookup (d : List (String × Command)) (k : String) : Option Command :=
  match d with
  | [] => none
  | p :: rest => if p.1 = k then some p.2 else cmdLookup rest k

/-- The `Command(...)` constructor call of `register.__call__`, with its
keyword arguments in source order: `name=mainname, maxsplit=self.maxsplit,
hide=self.hide, nargs=nargs, count=count, desc=desc,
instance=self.instance, handler=func, completion=self.completion,
modes=self.modes, not_modes=self.not_modes`. -/
def mkCommand (mainname : String) (opts : RegisterOptions) (func : Handler)
    (count : Bool) (nargs : Option Int × Option Int) (desc : String) :
    Command :=
  { name := mainname, maxsplit := opts.maxsplit, hide := opts.hide,
    nargs := nargs, count := count, desc := desc,
    instance_ := opts.instance_, handler := func,
    completion := opts.completion, modes := opts.modes,
    not_modes := opts.not_modes }

/-- The whole registration pipeline on a handler `func`:
the `register.__init__` mutual-exclusion check on `modes`/`not_modes`
(a `ValueError` when both are given), then `register.__call__` in
source order — resolve the names, call `_get_nargs_count`, compute the
description, build the `Command` record, and store it in the mapping
under every name (`for name in names: cmd_dict[name] = cmd`). Returns
the updated mapping together with the value `__call__` returns, which
is the original `func`. -/
def registerFull (opts : RegisterOptions) (func : Handler)
    (d : List (String × Command)) :
    Except RegError (List (String × Command) × Handler) :=
  if opts.modes.isSome && opts.not_modes.isSome then
    Except.error RegError.configError
  else
    match resolveNames opts.name func.funcName with
    | Except.error e => Except.error e
    | Except.ok (mainname, names) =>
      match getNargsCount opts.nargs func.argspec with
      | Except.error e => Except.error e
      | Except.ok (count, nargs) =>
        match getDesc func.doc with
        | Except.error e => Except.error e
        | Except.ok desc =>
          let cmd : Command := mkCommand mainname opts func count nargs desc
          Except.ok (names.foldl (fun acc n => dictInsert acc n cmd) d, func)

/-- The parameters of a signature other than the receiver: the code
detects the receiver by name (`'self' in spec.args`), so these are the
parameters not named `self`. -/
def nonReceiverParams (args : List String) : List String :=
  args.filter (fun a => decide (a ≠ "self"))

/-- The parameters of a signature that carry default values: by the
`inspect.getfullargspec` convention, the last `len(spec.defaults)`
entries of `spec.args`. -/
def defaultedParams (sp : ArgSpec) : List String :=
  sp.args.drop (sp.args.length - sp.ndefaults)

/-- Closed form of the signature-derived branch of `_get_nargs_count`
(the `self.nargs is None` path), read off the source. -/
lemma getNargsCount_none_eq (args : List String) (nd : Nat) (va : Bool) :
    getNargsCount none ⟨args, nd, va⟩ =
      Except.ok (decide ("count" ∈ args),
        (some ((args.length : Int) - (if "self" ∈ args then 1 else 0) -
           (nd : Int)),
         if va then none
         else some ((args.length : Int) -
           (if "self" ∈ args then 1 else 0) -
           (if decide ("count" ∈ args) then 1 else 0)))) := rfl

/-- On a duplicate-free parameter list, dropping the parameter named `self`
shortens the list by one exactly when `self` occurs. -/
lemma length_nonReceiverParams (args : List String) (h : args.Nodup) :
    ((nonReceiverParams args).length : Int)
      = (args.length : Int) - (if "self" ∈ args then 1 else 0) := by
  induction args with
  | nil => simp [nonReceiverParams]
  | cons a t ih =>
    rw [List.nodup_cons] at h
    by_cases ha : a = "self"
    · subst ha
      have ht : nonReceiverParams t = t :=
        List.filter_eq_self.mpr
          (fun b hb => decide_eq_true (fun hbs => h.1 (hbs ▸ hb)))
      have : nonReceiverParams ("self" :: t) = nonReceiverParams t := by
        simp [nonReceiverParams, List.filter_cons]
      rw [this, ht]
      simp
    · have hmem : ("self" ∈ a :: t) ↔ ("self" ∈ t) := by
        simp only [List.mem_cons]
        constructor
        · rintro (hx | hx)
          · exact absurd hx.symm ha
          · exact hx
        · exact Or.inr
      have hcons : nonReceiverParams (a :: t) = a :: nonReceiverParams t := by
        simp [nonReceiverParams, List.filter_cons, ha]
      have iht := ih h.2
      rw [hcons]
      simp only [List.length_cons, hmem]
      by_cases hs : "self" ∈ t
      · rw [if_pos hs] at iht ⊢
        omega
      · rw [if_neg hs] at iht ⊢
        omega

/-- Looking up a key directly after inserting it yields the inserted
record. -/
lemma cmdLookup_dictInsert_self (d : List (String × Command)) (k : String)
    (v : Command) : cmdLookup (dictInsert d k v) k = some v := by
  induction d with
  | nil => simp [dictInsert, cmdLookup]
  | cons p rest ih =>
    by_cases h : p.1 = k
    · simp [dictInsert, cmdLookup, h]
    · simp [dictInsert, cmdLookup, h, ih]

/-- Inserting under one key leaves every other key's binding unchanged. -/
lemma cmdLookup_dictInsert_ne (d : List (String × Command)) (k k' : String)
    (v : Command) (h : k' ≠ k) :
    cmdLookup (dictInsert d k v) k' = cmdLookup d k' := by
  induction d with
  | nil => simp [dictInsert, cmdLookup, Ne.symm h]
  | cons p rest ih =>
    by_cases hp : p.1 = k
    · simp [dictInsert, cmdLookup, hp, Ne.symm h]
    · simp only [dictInsert, hp, if_false, cmdLookup]
      by_cases hp' : p.1 = k' <;> simp [hp', ih]

/-- Inserting a key that is not yet bound grows the mapping by exactly one
entry. -/
lemma length_dictInsert_fresh (d : List (String × Command)) (k : String)
    (v : Command) (h : cmdLookup d k = none) :
    (dictInsert d k v).length = d.length + 1 := by
  induction d with
  | nil => simp [dictInsert]
  | cons p rest ih =>
    by_cases hp : p.1 = k
    · rw [cmdLookup, if_pos hp] at h
      exact absurd h (by simp)
    · rw [cmdLookup, if_neg hp] at h
      simp [dictInsert, hp, ih h]

/-- A successful registration decomposes into its pipeline stages:
the name resolution, arity resolution and description extraction all
succeeded, the returned handler is the decorated function, and the
resulting mapping is the input mapping with the one shared record
inserted under every resolved name in order. -/
lemma registerFull_eq_ok (opts : RegisterOptions) (func : Handler)
    (d d' : List (String × Command)) (f : Handler)
    (h : registerFull opts func d = Except.ok (d', f)) :
    ∃ mainname names count na desc,
      resolveNames opts.name func.funcName = Except.ok (mainname, names) ∧
      getNargsCount opts.nargs func.argspec = Except.ok (count, na) ∧
      getDesc func.doc = Except.ok desc ∧
      f = func ∧
      d' = names.foldl
        (fun acc n =>
          dictInsert acc n (mkCommand mainname opts func count na desc)) d := by
  unfold registerFull at h
  split at h
  · cases h
  · split at h
    · cases h
    · rename_i mainname names hres
      split at h
      · cases h
      · rename_i count na hnarg
        split at h
        · cases h
        · rename_i desc hdesc
          simp only [Except.ok.injEq, Prod.mk.injEq] at h
          exact ⟨mainname, names, count, na, desc, hres, hnarg, hdesc,
            h.2.symm, h.1.symm⟩

/-- C1: for every handler whose signature contains no parameter named
`count` and no varargs parameter, with `P` non-receiver parameters of which
`D` carry default values, `_get_nargs_count` with no explicit `nargs`
override yields `minargs = P - D` and `maxargs = P` (and no count support).
The side conditions record what Python guarantees about a real signature:
parameter names are distinct, there are at most as many defaults as
parameters, and the receiver — the parameter named `self`, when present —
carries no default, so that the claim's `D` is exactly
`len(spec.defaults)`. -/
theorem arity_no_count_no_varargs (args : List String) (nd P D : Nat)
    (hnodup : args.Nodup) (hcount : "count" ∉ args) (hnd : nd ≤ args.length)
    (hselfdef : "self" ∉ defaultedParams ⟨args, nd, false⟩)
    (hP : P = (nonReceiverParams args).length)
    (hD : D = ((defaultedParams ⟨args, nd, false⟩).filter
      (fun a => decide (a ≠ "self"))).length) :
    getNargsCount none ⟨args, nd, false⟩ =
      Except.ok (false, (some ((P : Int) - (D : Int)), some (P : Int))) := by
  have hfilter : (defaultedParams ⟨args, nd, false⟩).filter
      (fun a => decide (a ≠ "self")) = defaultedParams ⟨args, nd, false⟩ :=
    List.filter_eq_self.mpr
      (fun b hb => decide_eq_true (fun hbs => hselfdef (hbs ▸ hb)))
  have hDnd : D = nd := by
    rw [hD, hfilter]
    simp [defaultedParams, List.length_drop, Nat.sub_sub_self hnd]
  have hPlen : (P : Int)
      = (args.length : Int) - (if "self" ∈ args then 1 else 0) := by
    rw [hP]
    exact length_nonReceiverParams args hnodup
  rw [getNargsCount_none_eq]
  simp only [decide_eq_false hcount, Bool.false_eq_true, if_false, sub_zero]
  rw [hDnd, hPlen]

/-- C1, witness: `def cmd(self, url, bg=False)` — three parameters, one
default, receiver present, no count, no varargs — resolves to
`minargs = 1`, `maxargs = 2`, no count support. -/
theorem arity_no_count_no_varargs_witness :
    getNargsCount none ⟨["self", "url", "bg"], 1, false⟩ =
      Except.ok (false, (some 1, some 2)) := by
  have h := arity_no_count_no_varargs ["self", "url", "bg"] 1 2 1
    (by decide) (by decide) (by decide) (by decide) (by decide) (by decide)
  exact_mod_cast h

/-- C7: an explicit `nargs` override bypasses the signature entirely — a
single int `N` yields `minargs = maxargs = N` for every signature, and an
iterable `(min, max)` pair is passed through verbatim, `max` possibly the
unbounded sentinel (Python `None`). -/
theorem arity_explicit_override :
    (∀ (sp : ArgSpec) (n : Int),
      getNargsCount (some (NargsOverride.int n)) sp =
        Except.ok (decide ("count" ∈ sp.args), (some n, some n))) ∧
    (∀ (sp : ArgSpec) (mn mx : Option Int),
      getNargsCount (some (NargsOverride.iter [mn, mx])) sp =
        Except.ok (decide ("count" ∈ sp.args), (mn, mx))) :=
  ⟨fun _ _ => rfl, fun _ _ _ => rfl⟩

/-- C10: on a variadic signature, `_get_nargs_count` with no override
yields `maxargs = None` (unbounded) whether or not a `count` parameter is
present — the varargs branch takes precedence over the `- int(count)`
adjustment, which only exists on the non-variadic branch — while
`minargs` is still the non-receiver parameter count minus the default
count. -/
theorem arity_varargs_unbounded (args : List String) (nd : Nat)
    (hnodup : args.Nodup) :
    getNargsCount none ⟨args, nd, true⟩ =
      Except.ok (decide ("count" ∈ args),
        (some (((nonReceiverParams args).length : Int) - (nd : Int)), none)) := by
  rw [getNargsCount_none_eq, length_nonReceiverParams args hnodup]
  simp

/-- C10, witness: `def scroll(self, count=1, *args)` — variadic with a
`count` parameter — resolves to `count` support, `minargs = 0`,
unbounded `maxargs`. -/
theorem arity_varargs_unbounded_witness :
    getNargsCount none ⟨["self", "count"], 1, true⟩ =
      Except.ok (true, (some 0, none)) := by
  have h := arity_varargs_unbounded ["self", "count"] 1 (by decide)
  exact_mod_cast h

/-- C2: for every handler whose signature contains a `count` parameter
carrying a default value, `_get_nargs_count` with no override reports
count support, and its `minargs`/`maxargs` are exactly those of the same
signature with `count` (and its default) removed entirely — `count` is
transparent to arity. Parameter names are distinct, as Python
guarantees. -/
theorem arity_count_transparent (args : List String) (nd : Nat) (va : Bool)
    (hnodup : args.Nodup) (hmem : "count" ∈ args)
    (hdef : "count" ∈ defaultedParams ⟨args, nd, va⟩) :
    ∃ mn mx,
      getNargsCount none ⟨args, nd, va⟩ = Except.ok (true, (mn, mx)) ∧
      getNargsCount none ⟨args.erase "count", nd - 1, va⟩ =
        Except.ok (false, (mn, mx)) := by
  have hlenpos : 0 < args.length := List.length_pos_of_mem hmem
  have hnd1 : 1 ≤ nd := by
    by_contra hc
    have hz : nd = 0 := by omega
    rw [defaultedParams] at hdef
    simp only [hz, Nat.sub_zero] at hdef
    rw [List.drop_length] at hdef
    exact absurd hdef (List.not_mem_nil "count")
  have hse : ("self" ∈ args.erase "count") ↔ ("self" ∈ args) :=
    List.mem_erase_of_ne (by decide)
  have hce : "count" ∉ args.erase "count" :=
    fun hx => absurd rfl (hnodup.mem_erase_iff.mp hx).1
  have hlen : (args.erase "count").length = args.length - 1 :=
    List.length_erase_of_mem hmem
  refine ⟨some ((args.length : Int) - (if "self" ∈ args then 1 else 0) -
      (nd : Int)),
    if va then none
    else some ((args.length : Int) - (if "self" ∈ args then 1 else 0) - 1),
    ?_, ?_⟩
  · rw [getNargsCount_none_eq]
    simp [decide_eq_true hmem]
  · rw [getNargsCount_none_eq]
    have c1 : ((args.length - 1 : Nat) : Int) = (args.length : Int) - 1 := by
      omega
    have c2 : ((nd - 1 : Nat) : Int) = (nd : Int) - 1 := by omega
    rw [hlen, c1, c2]
    simp only [decide_eq_false hce, Bool.false_eq_true, if_false, sub_zero]
    have hif : (if "self" ∈ args.erase "count" then (1 : Int) else 0)
        = if "self" ∈ args then 1 else 0 := by
      by_cases hs : "self" ∈ args
      · rw [if_pos (hse.mpr hs), if_pos hs]
      · rw [if_neg (fun hx => hs (hse.mp hx)), if_neg hs]
    rw [hif]
    have e1 : (args.length : Int) - 1 - (if "self" ∈ args then (1 : Int) else 0)
        - ((nd : Int) - 1)
        = (args.length : Int) - (if "self" ∈ args then (1 : Int) else 0)
          - (nd : Int) := by ring
    have e2 : (args.length : Int) - 1 - (if "self" ∈ args then (1 : Int) else 0)
        = (args.length : Int) - (if "self" ∈ args then (1 : Int) else 0)
          - 1 := by ring
    rw [e1, e2]

/-- C2, witness: `def open(self, url, count=1)` — one non-receiver,
non-count parameter without a default — resolves to count support with
`minargs = maxargs = 1`, the same bounds as `def open(self, url)`. -/
theorem arity_count_transparent_witness :
    ∃ mn mx,
      getNargsCount none ⟨["self", "url", "count"], 1, false⟩ =
        Except.ok (true, (mn, mx)) ∧
      getNargsCount none ⟨["self", "url", "count"].erase "count", 1 - 1,
          false⟩ = Except.ok (false, (mn, mx)) :=
  arity_count_transparent ["self", "url", "count"] 1 false
    (by decide) (by decide) (by decide)

/-- C6: supplying both `modes` and `not_modes` makes the registration
fail with the mutual-exclusion error raised by `register.__init__`
(the spec's `ConfigurationError`; in the source, a `ValueError`), before
`__call__` could touch the mapping: no handler is registered and the
mapping is left unmodified — an error result carries no updated
mapping. -/
theorem register_modes_exclusive (opts : RegisterOptions) (func : Handler)
    (d : List (String × Command)) (h1 : opts.modes.isSome = true)
    (h2 : opts.not_modes.isSome = true) :
    registerFull opts func d = Except.error RegError.configError := by
  unfold registerFull
  rw [h1, h2]
  simp

/-- C6, witness: a registration given both a mode allow-list and a mode
deny-list fails with the configuration error. -/
theorem register_modes_exclusive_witness :
    registerFull { modes := some ["normal"], not_modes := some ["insert"] }
      ⟨"f", none, ⟨[], 0, false⟩⟩ [] = Except.error RegError.configError :=
  register_modes_exclusive _ _ _ rfl rfl

/-- C9: whenever registration succeeds, the handler it returns is the very
same handler it was given — `register.__call__` ends in `return func`,
never wrapping or replacing the function; its only effect is on the
mapping. -/
theorem register_returns_handler (opts : RegisterOptions) (func : Handler)
    (d d' : List (String × Command)) (f : Handler)
    (h : registerFull opts func d = Except.ok (d', f)) : f = func := by
  unfold registerFull at h
  split at h
  · cases h
  · split at h
    · cases h
    · split at h
      · cases h
      · split at h
        · cases h
        · simp only [Except.ok.injEq, Prod.mk.injEq] at h
          exact h.2.symm

/-- C9, witness: a concrete successful registration hands back the very
handler that was decorated. -/
theorem register_returns_handler_witness :
    (⟨"f", none, ⟨[], 0, false⟩⟩ : Handler) = ⟨"f", none, ⟨[], 0, false⟩⟩ :=
  register_returns_handler {} ⟨"f", none, ⟨[], 0, false⟩⟩ [] _ _ rfl

/-- C8: registering a handler under a list of three distinct names none of
which is already bound adds exactly three entries to the mapping, all
three bound to one and the same command record, whose primary `name` is
the first element of the list. -/
theorem register_three_names (n1 n2 n3 : String) (h12 : n1 ≠ n2)
    (h13 : n1 ≠ n3) (h23 : n2 ≠ n3) (d : List (String × Command))
    (hf1 : cmdLookup d n1 = none) (hf2 : cmdLookup d n2 = none)
    (hf3 : cmdLookup d n3 = none) (opts : RegisterOptions) (func : Handler)
    (hname : opts.name = some (Sum.inr [n1, n2, n3]))
    (d' : List (String × Command)) (f : Handler)
    (hreg : registerFull opts func d = Except.ok (d', f)) :
    d'.length = d.length + 3 ∧
      ∃ cmd, cmdLookup d' n1 = some cmd ∧ cmdLookup d' n2 = some cmd ∧
        cmdLookup d' n3 = some cmd ∧ cmd.name = n1 := by
  obtain ⟨mainname, names, count, na, desc, hres, -, -, -, hd'⟩ :=
    registerFull_eq_ok opts func d d' f hreg
  rw [hname] at hres
  simp only [resolveNames, Except.ok.injEq, Prod.mk.injEq] at hres
  obtain ⟨hm, hn⟩ := hres
  subst hm hn hd'
  set cmd : Command := mkCommand n1 opts func count na desc with hcmd
  simp only [List.foldl_cons, List.foldl_nil]
  have l2 : cmdLookup (dictInsert d n1 cmd) n2 = none := by
    rw [cmdLookup_dictInsert_ne d n1 n2 cmd (Ne.symm h12)]
    exact hf2
  have l3 : cmdLookup (dictInsert (dictInsert d n1 cmd) n2 cmd) n3 = none := by
    rw [cmdLookup_dictInsert_ne _ n2 n3 cmd (Ne.symm h23),
      cmdLookup_dictInsert_ne d n1 n3 cmd (Ne.symm h13)]
    exact hf3
  constructor
  · rw [length_dictInsert_fresh _ n3 cmd l3,
      length_dictInsert_fresh _ n2 cmd l2,
      length_dictInsert_fresh d n1 cmd hf1]
  · refine ⟨cmd, ?_, ?_, cmdLookup_dictInsert_self _ n3 cmd, rfl⟩
    · rw [cmdLookup_dictInsert_ne _ n3 n1 cmd h13,
        cmdLookup_dictInsert_ne _ n2 n1 cmd h12]
      exact cmdLookup_dictInsert_self d n1 cmd
    · rw [cmdLookup_dictInsert_ne _ n3 n2 cmd h23]
      exact cmdLookup_dictInsert_self _ n2 cmd

/-- C8, witness: registering a handler as `["o", "open", "go"]` into the
empty mapping yields a three-entry mapping, the three names all bound to
one record named `"o"`. -/
theorem register_three_names_witness :
    ∃ (d' : List (String × Command)) (f : Handler),
      registerFull { name := some (Sum.inr ["o", "open", "go"]) }
        ⟨"f", none, ⟨["self", "url"], 0, false⟩⟩ [] = Except.ok (d', f) ∧
      d'.length = ([] : List (String × Command)).length + 3 ∧
      ∃ cmd, cmdLookup d' "o" = some cmd ∧ cmdLookup d' "open" = some cmd ∧
        cmdLookup d' "go" = some cmd ∧ cmd.name = "o" := by
  have h := register_three_names "o" "open" "go" (by decide) (by decide)
    (by decide) [] rfl rfl rfl
    { name := some (Sum.inr ["o", "open", "go"]) }
    ⟨"f", none, ⟨["self", "url"], 0, false⟩⟩ rfl _ _ rfl
  exact ⟨_, _, rfl, h⟩

/-- C3, counterexample: an explicit pair override whose minimum exceeds its
maximum is NOT rejected — `_get_nargs_count` returns `(2, 1)` verbatim
with no error, and a registration using it succeeds and stores a record
with `nargs = (2, 1)`; the source has no min ≤ max check. -/
theorem arity_min_gt_max_accepted :
    getNargsCount (some (NargsOverride.iter [some 2, some 1]))
      ⟨["self"], 0, false⟩ = Except.ok (false, (some 2, some 1)) ∧
    ∃ p : List (String × Command) × Handler,
      registerFull
        { name := some (Sum.inl "x"),
          nargs := some (NargsOverride.iter [some 2, some 1]) }
        ⟨"f", none, ⟨["self"], 0, false⟩⟩ [] = Except.ok p ∧
      ∃ cmd, cmdLookup p.1 "x" = some cmd ∧ cmd.nargs = (some 2, some 1) := by
  exact ⟨rfl, _, rfl, _, rfl, rfl⟩

/-- C3 (amended): an explicit pair override with more or fewer than two
elements makes arity resolution fail fast (the `ValueError` Python raises
on unpacking — the error the spec calls `InvalidArityError`), and every
registration carrying such an override fails, so no entry is added; a
pair with min > max, however, is accepted verbatim without any error. -/
theorem arity_pair_wrong_shape_fails (es : List (Option Int))
    (h : es.length ≠ 2) :
    (∀ sp : ArgSpec, getNargsCount (some (NargsOverride.iter es)) sp =
      Except.error RegError.unpackError) ∧
    ∀ (opts : RegisterOptions) (func : Handler)
      (d : List (String × Command)) (p : List (String × Command) × Handler),
      opts.nargs = some (NargsOverride.iter es) →
      registerFull opts func d ≠ Except.ok p := by
  have hg : ∀ sp : ArgSpec, getNargsCount (some (NargsOverride.iter es)) sp =
      Except.error RegError.unpackError := by
    intro sp
    match es, h with
    | [], _ => rfl
    | [a], _ => rfl
    | [a, b], h => exact absurd rfl h
    | a :: b :: c :: t, _ => rfl
  refine ⟨hg, ?_⟩
  intro opts func d p hn hok
  obtain ⟨mainname, names, count, na, desc, -, hnarg, -, -, -⟩ :=
    registerFull_eq_ok opts func d p.1 p.2 (by rw [hok])
  rw [hn, hg func.argspec] at hnarg
  cases hnarg

/-- C3 (amended), witness: a three-element override makes arity resolution,
and hence registration, fail with the unpacking error. -/
theorem arity_pair_wrong_shape_fails_witness :
    getNargsCount (some (NargsOverride.iter [some 0, some 1, none]))
      ⟨["self"], 0, false⟩ = Except.error RegError.unpackError :=
  (arity_pair_wrong_shape_fails [some 0, some 1, none] (by decide)).1
    ⟨["self"], 0, false⟩

/-- C4, counterexample: registering with `name=["q", "quit"]`, `hide=True`
on a handler whose docstring is the empty string does NOT succeed: since
`"".splitlines()` is the empty list, `func.__doc__.splitlines()[0]`
raises `IndexError`, the registration call fails, and no entry is
added. -/
theorem register_q_quit_empty_doc_fails :
    registerFull { name := some (Sum.inr ["q", "quit"]), hide := true }
      ⟨"quit", some "", ⟨["self"], 0, false⟩⟩ [] =
      Except.error RegError.indexError := rfl

/-- C4 (amended): registering with `name=["q", "quit"]` and `hide=True` on
a handler with no docstring (`__doc__ is None`) succeeds, binds both keys
`"q"` and `"quit"` in the mapping to the stored record, and that record
has `hide = true` and an empty description. -/
theorem register_q_quit_no_doc (fname : String) (sp : ArgSpec)
    (d : List (String × Command)) :
    ∃ (d' : List (String × Command)) (f : Handler),
      registerFull { name := some (Sum.inr ["q", "quit"]), hide := true }
        ⟨fname, none, sp⟩ d = Except.ok (d', f) ∧
      ∃ cmd, cmdLookup d' "q" = some cmd ∧ cmdLookup d' "quit" = some cmd ∧
        cmd.hide = true ∧ cmd.desc = "" := by
  obtain ⟨args, nd, va⟩ := sp
  refine ⟨_, _, rfl,
    mkCommand "q" { name := some (Sum.inr ["q", "quit"]), hide := true }
      ⟨fname, none, ⟨args, nd, va⟩⟩ (decide ("count" ∈ args))
      (some ((args.length : Int) - (if "self" ∈ args then 1 else 0) -
          (nd : Int)),
        if va then none
        else some ((args.length : Int) - (if "self" ∈ args then 1 else 0) -
          (if decide ("count" ∈ args) then 1 else 0)))
      "", ?_, ?_, rfl, rfl⟩
  · simp only [List.foldl_cons, List.foldl_nil]
    rw [cmdLookup_dictInsert_ne _ "quit" "q" _ (by decide)]
    exact cmdLookup_dictInsert_self d "q" _
  · simp only [List.foldl_cons, List.foldl_nil]
    exact cmdLookup_dictInsert_self _ "quit" _

/-- C5, counterexample: `rstrip(".")` strips every trailing period, not a
single one — a docstring whose first line is `"Quit qutebrowser.."`
yields the description `"Quit qutebrowser"`, not the
`"Quit qutebrowser."` that stripping one period would leave. -/
theorem desc_multiple_periods_stripped :
    getDesc (some "Quit qutebrowser..") = Except.ok "Quit qutebrowser" ∧
      "Quit qutebrowser" ≠ "Quit qutebrowser." := ⟨rfl, by decide⟩

/-- C5 (amended): for every handler whose docstring is present and has at
least one line, the description is the first line, stripped of
surrounding whitespace and of all trailing periods; for a handler with no
docstring the description is the empty string. (A present but empty
docstring is excluded: there `splitlines()` is empty and indexing it
raises `IndexError`.) -/
theorem desc_from_first_doc_line :
    (∀ (s line : String) (rest : List String), splitlines s = line :: rest →
      getDesc (some s) = Except.ok (rstripDots (pyStrip line))) ∧
    getDesc none = Except.ok "" := by
  refine ⟨?_, rfl⟩
  intro s line rest h
  simp only [getDesc]
  rw [h]

/-- C5 (amended), witness: a two-line docstring whose first line ends in a
period produces that line with the period stripped. -/
theorem desc_from_first_doc_line_witness :
    getDesc (some "Open a URL.\nArgs:") = Except.ok "Open a URL" := by
  have h := desc_from_first_doc_line.1 "Open a URL.\nArgs:" "Open a URL."
    ["Args:"] rfl
  exact h

end QuteReg
